import Mathlib

/-!
Shallow embedding of the ChatApp backend: the mongoose schemas (Chat,
Message), the Express routes in `backend/routes/chat.js`, and the Socket.IO
`send-message` handler in `server.js`.

Identifiers: chat and message `_id`s are modelled as `Nat` drawn from
per-collection counters; user ids are strings (the schemas store them as
strings).  Timestamps (`Date.now()`, `createdAt`, `updatedAt`) are `Nat`
milliseconds and each operation receives the current time `now` as an
argument.  The mongoose query `Message.find({chat}).sort({createdAt:-1})`
is embedded as the reverse of the insertion-ordered message list, which is
the sort result whenever insertion order is chronological (every write
stamps `createdAt` with the current time).
-/

/-- Image payload stored on a message (buffer plus content type). -/
structure Image where
  data : String
  contentType : String
deriving DecidableEq

/-- A stored Message document (MessageSchema in `models/Message.js`):
chat, sender, text, image, createdAt.  The schema declares no `edited`
path, so no edited flag is ever persisted (Mongoose strict mode drops
assignments to undeclared paths on save). -/
structure Message where
  id : Nat
  chat : Nat
  sender : String
  text : Option String
  image : Option Image
  createdAt : Nat
deriving DecidableEq

/-- The formatted message view the PATCH route returns and broadcasts
(`backend/routes/chat.js` lines 252-259); its `edited` field is the
hardcoded literal of line 258, not a stored attribute. -/
structure MsgView where
  id : Nat
  sender : String
  text : Option String
  image : Option Image
  createdAt : Nat
  edited : Bool
deriving DecidableEq

/-- A stored Chat document (ChatSchema in `models/Chat.js`). -/
structure Chat where
  id : Nat
  participants : List String
  lastMessage : Option Nat
  createdAt : Nat
  updatedAt : Nat
deriving DecidableEq

/-- Error outcomes of the routes (HTTP status classes: 400, 404, 403, 500). -/
inductive Err where
  | invalidArgument
  | notFound
  | forbidden
  | serverError
deriving DecidableEq

/-- Route outcome: ok payload or error status. -/
inductive Result (α : Type) where
  | ok (a : α)
  | err (e : Err)
deriving DecidableEq

/-- Database state: the Chat and Message collections plus fresh-id counters.
Messages are kept in insertion order. -/
structure DB where
  chats : List Chat
  messages : List Message
  nextChatId : Nat
  nextMsgId : Nat
deriving DecidableEq

/-- Lexicographic comparison of char lists by code point (the comparison JS
`Array.prototype.sort` applies to strings). -/
def charsLe : List Char → List Char → Bool
  | [], _ => true
  | _ :: _, [] => false
  | a :: as, b :: bs =>
    if a < b then true
    else if b < a then false
    else charsLe as bs

/-- String order used by `[userId1, userId2].sort()`. -/
def strLe (a b : String) : Bool := charsLe a.data b.data

/-- Whitespace for JS `String.prototype.trim`. -/
def isWs (c : Char) : Bool :=
  c = ' ' || c = '\t' || c = '\n' || c = '\r'

/-- JS `s.trim()`: strip leading and trailing whitespace. -/
def strTrim (s : String) : String :=
  ⟨(((s.data.dropWhile isWs).reverse.dropWhile isWs).reverse : List Char)⟩

/-- JS `[userId1, userId2].map(id => id.toString()).sort()` for two elements. -/
def sortPair (a b : String) : String × String :=
  if strLe a b then (a, b) else (b, a)

/-- ChatSchema `participants` validator: exactly 2 entries and the Set of
their strings has size 2 (`models/Chat.js`). -/
def chatValid (ps : List String) : Bool :=
  ps.length == 2 && ps.dedup.length == 2

/-- Mongo query `{ participants: { $all: [u1, u2], $size: 2 } }`. -/
def chatMatches (u1 u2 : String) (c : Chat) : Bool :=
  c.participants.contains u1 && c.participants.contains u2
    && (c.participants.length == 2)

/-- Route `POST /create-or-get` (`backend/routes/chat.js` lines 77-109). -/
def createOrGet (db : DB) (userId1 userId2 : String) (now : Nat) :
    Result Chat × DB :=
  if userId1 = "" || userId2 = "" then (.err .invalidArgument, db)
  else
    let p := sortPair userId1 userId2
    if p.1 = p.2 then (.err .invalidArgument, db)
    else
      match db.chats.find? (chatMatches userId1 userId2) with
      | some c => (.ok c, db)
      | none =>
        if chatValid [p.1, p.2] then
          let c : Chat := { id := db.nextChatId, participants := [p.1, p.2],
                            lastMessage := none, createdAt := now,
                            updatedAt := now }
          (.ok c, { db with chats := db.chats ++ [c],
                            nextChatId := db.nextChatId + 1 })
        else (.err .serverError, db)

/-- All messages of a chat, in insertion (chronological) order. -/
def chatTimeline (db : DB) (chatId : Nat) : List Message :=
  db.messages.filter (fun m => m.chat == chatId)

/-- Query `Message.find({chat: chatId}).sort({createdAt: -1})`: newest first. -/
def messagesDesc (db : DB) (chatId : Nat) : List Message :=
  (chatTimeline db chatId).reverse

/-- The `.skip((page-1)*limit).limit(limit)` selection, reversed for the
response, plus the `hasMore: messages.length === limit` flag
(`backend/routes/chat.js` lines 119-153). -/
def pageOf (msgsDesc : List Message) (page limit : Nat) :
    List Message × Bool :=
  let sel := (msgsDesc.drop ((page - 1) * limit)).take limit
  (sel.reverse, sel.length == limit)

/-- Route `GET /:chatId` (lines 114-160), for already-parsed page/limit values. -/
def getChat (db : DB) (chatId : Nat) (page limit : Nat) :
    Result (Chat × List Message × Bool) :=
  match db.chats.find? (fun c => c.id == chatId) with
  | none => .err .notFound
  | some c =>
    .ok (c, (pageOf (messagesDesc db chatId) page limit).1,
          (pageOf (messagesDesc db chatId) page limit).2)

/-- JS `parseInt(q) || dflt`: an absent or unparsable value (`none`) and a
parsed 0 both fall back to the default, any other parsed integer is kept. -/
def parseIntOr (dflt : Int) (q : Option Int) : Int :=
  match q with
  | none => dflt
  | some v => if v = 0 then dflt else v

/-- Line 118: `Math.min(parseInt(req.query.limit) || 30, 100)`. -/
def effLimit (q : Option Int) : Int := min (parseIntOr 30 q) 100

/-- A client paging backward: request page `page`, and while `hasMore` is
true keep requesting the next page number, prepending each older page.
`fuel` bounds the number of requests. -/
def collectPages (msgsDesc : List Message) (limit : Nat) :
    Nat → Nat → List Message
  | _, 0 => []
  | page, fuel + 1 =>
    if (pageOf msgsDesc page limit).2 then
      collectPages msgsDesc limit (page + 1) fuel
        ++ (pageOf msgsDesc page limit).1
    else (pageOf msgsDesc page limit).1

/-- Proof-internal reformulation of `collectPages` that walks the remaining
suffix of the descending list instead of carrying a page number. -/
def pagesRest (limit : Nat) : List Message → Nat → List Message
  | _, 0 => []
  | rest, fuel + 1 =>
    if (rest.take limit).length == limit then
      pagesRest limit (rest.drop limit) fuel ++ (rest.take limit).reverse
    else (rest.take limit).reverse

/-- Route `POST /send-message` (`backend/routes/chat.js` lines 165-217).
`text` is the multipart text field (`none` = absent), `file` the uploaded
image. -/
def sendMessage (db : DB) (chatId : Nat) (senderId : String)
    (text : Option String) (file : Option Image) (now : Nat) :
    Result Message × DB :=
  if senderId = "" then (.err .invalidArgument, db)
  else
    match db.chats.find? (fun c => c.id == chatId) with
    | none => (.err .notFound, db)
    | some c =>
      if c.participants.contains senderId then
        let t0 := text.map strTrim
        let t1 :=
          if file.isSome then
            match t0 with
            | none => some "Photo"
            | some s => if s = "" then some "Photo" else some s
          else t0
        let m : Message := { id := db.nextMsgId, chat := chatId,
                             sender := senderId, text := t1, image := file,
                             createdAt := now }
        (.ok m, { db with
          messages := db.messages ++ [m],
          nextMsgId := db.nextMsgId + 1,
          chats := db.chats.map (fun ch =>
            if ch.id == chatId then
              { ch with updatedAt := now, lastMessage := some m.id }
            else ch) })
      else (.err .forbidden, db)

/-- The Socket.IO `send-message` handler (`server.js` lines 316-360).  It
creates the message directly: no chat-existence check and no participant
check; `text: text || (image ? 'Photo' : '')`; `Chat.findByIdAndUpdate` is
a no-op when the chat is absent. -/
def socketSendMessage (db : DB) (chatId : Nat) (senderId : String)
    (text : Option String) (image : Option Image) (now : Nat) :
    Result Message × DB :=
  let fallback := if image.isSome then "Photo" else ""
  let textVal :=
    match text with
    | none => fallback
    | some t => if t = "" then fallback else t
  if senderId = "" then (.err .serverError, db)
  else
    let m : Message := { id := db.nextMsgId, chat := chatId,
                         sender := senderId, text := some textVal,
                         image := image, createdAt := now }
    (.ok m, { db with
      messages := db.messages ++ [m],
      nextMsgId := db.nextMsgId + 1,
      chats := db.chats.map (fun ch =>
        if ch.id == chatId then
          { ch with updatedAt := now, lastMessage := some m.id }
        else ch) })

/-- Route `PATCH /message/:messageId` (`backend/routes/chat.js` lines
222-269).  The route assigns `message.edited = true` before `save()`, but
MessageSchema declares no `edited` path, so strict mode drops that
assignment and only the text update reaches the store; the `edited: true`
of the returned (and broadcast) view is the hardcoded literal of line
258. -/
def editMessage (db : DB) (messageId : Nat) (text : Option String)
    (userId : String) (now : Nat) : Result MsgView × DB :=
  match text with
  | none => (.err .invalidArgument, db)
  | some t =>
    if strTrim t = "" then (.err .invalidArgument, db)
    else
      match db.messages.find? (fun m => m.id == messageId) with
      | none => (.err .notFound, db)
      | some m =>
        if m.sender = userId then
          if now - m.createdAt > 15 * 60 * 1000 then (.err .forbidden, db)
          else
            let m' := { m with text := some (strTrim t) }
            (.ok { id := m.id, sender := m.sender, text := m'.text,
                   image := m.image, createdAt := m.createdAt,
                   edited := true },
             { db with
               messages := db.messages.map (fun x =>
                 if x.id == messageId then m' else x) })
        else (.err .forbidden, db)

/-- Query `Message.findOne({chat}).sort({createdAt:-1})` over a message list:
the newest message of the chat. -/
def newestInChat (msgs : List Message) (chatId : Nat) : Option Message :=
  ((msgs.filter (fun m => m.chat == chatId)).reverse).head?

/-- Route `DELETE /message/:messageId` (`backend/routes/chat.js` lines 274-307).
The `chat` lookup after `deleteOne` dereferences `chat.lastMessage` without
a null check, so a missing owning chat is a thrown error (500) that occurs
after the message was already deleted. -/
def deleteMessage (db : DB) (messageId : Nat) (userId : String) (now : Nat) :
    Result Nat × DB :=
  match db.messages.find? (fun m => m.id == messageId) with
  | none => (.err .notFound, db)
  | some m =>
    if m.sender = userId then
      let msgs' := db.messages.filter (fun x => !(x.id == messageId))
      match db.chats.find? (fun ch => ch.id == m.chat) with
      | none => (.err .serverError, { db with messages := msgs' })
      | some c =>
        if c.lastMessage = some messageId then
          let prev := newestInChat msgs' m.chat
          (.ok messageId, { db with
            messages := msgs',
            chats := db.chats.map (fun ch =>
              if ch.id == m.chat then
                { ch with lastMessage := prev.map (fun x => x.id),
                          updatedAt := now }
              else ch) })
        else (.ok messageId, { db with messages := msgs' })
    else (.err .forbidden, db)

/-- Every stored chat satisfies the ChatSchema participants validator. -/
def allChatsValid (db : DB) : Bool :=
  db.chats.all (fun c => chatValid c.participants)

/-- The message list is in chronological order of `createdAt`. -/
def chronological (l : List Message) : Prop :=
  l.Pairwise (fun a b => a.createdAt ≤ b.createdAt)

/-- Whether a route outcome is a success. -/
def Result.isOk {α : Type} : Result α → Bool
  | .ok _ => true
  | .err _ => false

/-- The chat record `Chat.create({ participants })` builds in the
create-or-get route. -/
def newChat (db : DB) (A B : String) (now : Nat) : Chat :=
  { id := db.nextChatId,
    participants := [(sortPair A B).1, (sortPair A B).2],
    lastMessage := none, createdAt := now, updatedAt := now }

/-- A message of chat 1 with the given id and timestamp, used in the
pagination counterexample. -/
def cexMsg (i t : Nat) : Message :=
  { id := i, chat := 1, sender := "alice", text := some "x", image := none,
    createdAt := t }

/-- Chat record of the concrete witness store. -/
def chatW : Chat :=
  { id := 1, participants := ["alice", "bob"], lastMessage := some 3,
    createdAt := 0, updatedAt := 30 }

/-- First message of the concrete witness store. -/
def msgW1 : Message :=
  { id := 1, chat := 1, sender := "alice", text := some "hi",
    image := none, createdAt := 10 }

/-- Second message of the concrete witness store. -/
def msgW2 : Message :=
  { id := 2, chat := 1, sender := "bob", text := some "yo",
    image := none, createdAt := 20 }

/-- Third message of the concrete witness store. -/
def msgW3 : Message :=
  { id := 3, chat := 1, sender := "alice", text := some "sup",
    image := none, createdAt := 30 }

/-- A concrete store with one chat (id 1, alice and bob) and three
messages, used by witnesses and counterexamples. -/
def dbW : DB :=
  { chats := [chatW], messages := [msgW1, msgW2, msgW3],
    nextChatId := 2, nextMsgId := 4 }

/-- A concrete image payload used by witnesses. -/
def imgW : Image := { data := "d", contentType := "image/jpeg" }

theorem charsLe_total (as bs : List Char) (h : charsLe as bs = false) :
    charsLe bs as = true := by
  induction as generalizing bs with
  | nil => simp [charsLe] at h
  | cons a as ih =>
    cases bs with
    | nil => simp [charsLe]
    | cons b bs =>
      by_cases hab : a < b
      · simp [charsLe, hab] at h
      · by_cases hba : b < a
        · simp [charsLe, hba]
        · have hr := ih bs (by simpa [charsLe, hab, hba] using h)
          simpa [charsLe, hab, hba] using hr

theorem charsLe_antisymm (as bs : List Char) (h1 : charsLe as bs = true)
    (h2 : charsLe bs as = true) : as = bs := by
  induction as generalizing bs with
  | nil =>
    cases bs with
    | nil => rfl
    | cons b bs => simp [charsLe] at h2
  | cons a as ih =>
    cases bs with
    | nil => simp [charsLe] at h1
    | cons b bs =>
      by_cases hab : a < b
      · have hba : ¬ b < a := fun hba => absurd hab (lt_asymm hba)
        simp [charsLe, hab, hba] at h2
      · by_cases hba : b < a
        · simp [charsLe, hab, hba] at h1
        · have hch : a = b := le_antisymm (not_lt.mp hba) (not_lt.mp hab)
          have h1' : charsLe as bs = true := by
            simpa [charsLe, hab, hba] using h1
          have h2' : charsLe bs as = true := by
            have hab' : ¬ b < a := hba
            have hba' : ¬ a < b := hab
            simpa [charsLe, hab', hba'] using h2
          rw [hch, ih bs h1' h2']

theorem sortPair_comm (a b : String) : sortPair a b = sortPair b a := by
  by_cases h1 : strLe a b = true
  · by_cases h2 : strLe b a = true
    · have hab : a = b := String.ext (charsLe_antisymm _ _ h1 h2)
      subst hab; rfl
    · have h2' : strLe b a = false := by
        revert h2; cases strLe b a <;> simp
      simp [sortPair, h1, h2']
  · have h1' : strLe a b = false := by
      revert h1; cases strLe a b <;> simp
    have h2 : strLe b a = true := charsLe_total _ _ h1'
    simp [sortPair, h1', h2]

theorem sortPair_cases (a b : String) :
    sortPair a b = (a, b) ∨ sortPair a b = (b, a) := by
  unfold sortPair
  by_cases h : strLe a b = true <;> simp [h]

theorem chatMatches_comm (u1 u2 : String) (c : Chat) :
    chatMatches u1 u2 c = chatMatches u2 u1 c := by
  unfold chatMatches
  rw [Bool.and_comm (c.participants.contains u1) (c.participants.contains u2)]

theorem find?_congr {α : Type} (l : List α) (p q : α → Bool)
    (h : ∀ x, p x = q x) : l.find? p = l.find? q := by
  induction l with
  | nil => rfl
  | cons a l ih =>
    cases hqa : q a <;> simp [List.find?_cons, h a, hqa, ih]

theorem find?_map_if {α : Type} (l : List α) (p : α → Bool) (b : α)
    (hl : (l.find? p).isSome = true) (hb : p b = true) :
    (l.map (fun x => if p x then b else x)).find? p = some b := by
  induction l with
  | nil => simp [List.find?] at hl
  | cons a l ih =>
    by_cases ha : p a = true
    · simp [List.find?_cons, ha, hb]
    · have ha' : p a = false := by revert ha; cases p a <;> simp
      have hl' : (l.find? p).isSome = true := by
        simpa [List.find?_cons, ha'] using hl
      simp [List.find?_cons, ha', ih hl']

theorem sortPair_ne (A B : String) (hAB : A ≠ B) :
    (sortPair A B).1 ≠ (sortPair A B).2 := by
  rcases sortPair_cases A B with h | h <;> rw [h]
  · exact hAB
  · exact Ne.symm hAB

theorem chatValid_pair (x y : String) (h : x ≠ y) : chatValid [x, y] = true := by
  have hd : ([x, y] : List String).dedup = [x, y] := by
    rw [List.dedup_cons_of_not_mem (by simp [h])]
    simp
  simp [chatValid, hd]

theorem createOrGet_found (db : DB) (A B : String) (now : Nat)
    (hA : A ≠ "") (hB : B ≠ "") (hAB : A ≠ B) (c : Chat)
    (hfo : db.chats.find? (chatMatches A B) = some c) :
    createOrGet db A B now = (Result.ok c, db) := by
  simp [createOrGet, hfo, hA, hB, sortPair_ne A B hAB]

theorem createOrGet_create (db : DB) (A B : String) (now : Nat)
    (hA : A ≠ "") (hB : B ≠ "") (hAB : A ≠ B)
    (hfo : db.chats.find? (chatMatches A B) = none) :
    createOrGet db A B now =
      (Result.ok (newChat db A B now),
       { db with chats := db.chats ++ [newChat db A B now],
                 nextChatId := db.nextChatId + 1 }) := by
  simp [createOrGet, hfo, hA, hB, sortPair_ne A B hAB,
    chatValid_pair _ _ (sortPair_ne A B hAB), newChat]

/-- Claim C3: for valid distinct ids A and B, create-or-get is symmetric in
the pair (both orders return the same chat and leave the same store) and
idempotent (a repeated call, in either order, returns the same chat and
does not change the store, so no second chat is created for the pair). -/
theorem resolve_comm_idem (db : DB) (A B : String) (now now' : Nat)
    (hA : A ≠ "") (hB : B ≠ "") (hAB : A ≠ B) :
    createOrGet db A B now = createOrGet db B A now ∧
    (createOrGet db A B now).1.isOk = true ∧
    createOrGet (createOrGet db A B now).2 A B now' = createOrGet db A B now ∧
    createOrGet (createOrGet db A B now).2 B A now' = createOrGet db A B now := by
  have hfind : db.chats.find? (chatMatches B A) =
      db.chats.find? (chatMatches A B) :=
    find?_congr _ _ _ (fun c => chatMatches_comm B A c)
  cases hfo : db.chats.find? (chatMatches A B) with
  | some c =>
    have e1 := createOrGet_found db A B now hA hB hAB c hfo
    have e2 := createOrGet_found db B A now hB hA (Ne.symm hAB) c
      (hfind.trans hfo)
    have e3 := createOrGet_found db A B now' hA hB hAB c hfo
    have e4 := createOrGet_found db B A now' hB hA (Ne.symm hAB) c
      (hfind.trans hfo)
    refine ⟨e1.trans e2.symm, ?_, ?_, ?_⟩
    · rw [e1]; rfl
    · rw [e1]; exact e3
    · rw [e1]; exact e4
  | none =>
    have e1 := createOrGet_create db A B now hA hB hAB hfo
    have e2 := createOrGet_create db B A now hB hA (Ne.symm hAB)
      (hfind.trans hfo)
    have hnc : newChat db B A now = newChat db A B now := by
      simp [newChat, sortPair_comm A B]
    rw [hnc] at e2
    have hmem : chatMatches A B (newChat db A B now) = true := by
      rcases sortPair_cases A B with h | h <;> simp [chatMatches, newChat, h]
    have hdb1 : (db.chats ++ [newChat db A B now]).find? (chatMatches A B)
        = some (newChat db A B now) := by
      rw [List.find?_append, hfo]
      simp [List.find?_cons, hmem]
    have hdb1' : (db.chats ++ [newChat db A B now]).find? (chatMatches B A)
        = some (newChat db A B now) :=
      (find?_congr _ _ _ (fun c => chatMatches_comm B A c)).trans hdb1
    have e3 := createOrGet_found
      { db with chats := db.chats ++ [newChat db A B now],
                nextChatId := db.nextChatId + 1 }
      A B now' hA hB hAB _ hdb1
    have e4 := createOrGet_found
      { db with chats := db.chats ++ [newChat db A B now],
                nextChatId := db.nextChatId + 1 }
      B A now' hB hA (Ne.symm hAB) _ hdb1'
    refine ⟨e1.trans e2.symm, ?_, ?_, ?_⟩
    · rw [e1]; rfl
    · rw [e1]; exact e3
    · rw [e1]; exact e4

theorem sortPair_self (a : String) : sortPair a a = (a, a) := by
  unfold sortPair
  split <;> rfl

theorem createOrGet_db_cases (db : DB) (u1 u2 : String) (now : Nat) :
    (createOrGet db u1 u2 now).2 = db ∨
    ∃ c, chatValid c.participants = true ∧
      (createOrGet db u1 u2 now).2 =
        { db with chats := db.chats ++ [c],
                  nextChatId := db.nextChatId + 1 } := by
  simp only [createOrGet]
  split
  · exact Or.inl rfl
  split
  · exact Or.inl rfl
  split
  · exact Or.inl rfl
  split
  · next hv => exact Or.inr ⟨_, hv, rfl⟩
  · exact Or.inl rfl

theorem allChatsValid_of_stable (db db' : DB)
    (h : ∀ c ∈ db'.chats, ∃ c0, c0 ∈ db.chats ∧
      c.participants = c0.participants)
    (hdb : allChatsValid db = true) : allChatsValid db' = true := by
  rw [allChatsValid, List.all_eq_true]
  intro c hc
  obtain ⟨c0, hc0, hp⟩ := h c hc
  rw [allChatsValid, List.all_eq_true] at hdb
  simpa [hp] using hdb c0 hc0

theorem chats_stable_map (l : List Chat) (f : Chat → Chat)
    (hf : ∀ c, (f c).participants = c.participants) :
    ∀ c ∈ l.map f, ∃ c0, c0 ∈ l ∧ c.participants = c0.participants := by
  intro c hc
  obtain ⟨c0, hc0, rfl⟩ := List.mem_map.mp hc
  exact ⟨c0, hc0, hf c0⟩

theorem sendMessage_chats_stable (db : DB) (chatId : Nat) (senderId : String)
    (text : Option String) (file : Option Image) (now : Nat) :
    ∀ c ∈ (sendMessage db chatId senderId text file now).2.chats,
      ∃ c0, c0 ∈ db.chats ∧ c.participants = c0.participants := by
  simp only [sendMessage]
  split
  · exact fun c hc => ⟨c, hc, rfl⟩
  split
  · exact fun c hc => ⟨c, hc, rfl⟩
  split
  · exact chats_stable_map _ _ (fun c => by split <;> rfl)
  · exact fun c hc => ⟨c, hc, rfl⟩

theorem socketSendMessage_chats_stable (db : DB) (chatId : Nat)
    (senderId : String) (text : Option String) (image : Option Image)
    (now : Nat) :
    ∀ c ∈ (socketSendMessage db chatId senderId text image now).2.chats,
      ∃ c0, c0 ∈ db.chats ∧ c.participants = c0.participants := by
  simp only [socketSendMessage]
  split
  · exact fun c hc => ⟨c, hc, rfl⟩
  · exact chats_stable_map _ _ (fun c => by split <;> rfl)

theorem editMessage_chats_stable (db : DB) (messageId : Nat)
    (text : Option String) (userId : String) (now : Nat) :
    ∀ c ∈ (editMessage db messageId text userId now).2.chats,
      ∃ c0, c0 ∈ db.chats ∧ c.participants = c0.participants := by
  simp only [editMessage]
  split
  · exact fun c hc => ⟨c, hc, rfl⟩
  split
  · exact fun c hc => ⟨c, hc, rfl⟩
  split
  · exact fun c hc => ⟨c, hc, rfl⟩
  split
  · split
    · exact fun c hc => ⟨c, hc, rfl⟩
    · exact fun c hc => ⟨c, hc, rfl⟩
  · exact fun c hc => ⟨c, hc, rfl⟩

theorem deleteMessage_chats_stable (db : DB) (messageId : Nat)
    (userId : String) (now : Nat) :
    ∀ c ∈ (deleteMessage db messageId userId now).2.chats,
      ∃ c0, c0 ∈ db.chats ∧ c.participants = c0.participants := by
  simp only [deleteMessage]
  split
  · exact fun c hc => ⟨c, hc, rfl⟩
  split
  · split
    · exact fun c hc => ⟨c, hc, rfl⟩
    · split
      · exact chats_stable_map _ _ (fun c => by split <;> rfl)
      · exact fun c hc => ⟨c, hc, rfl⟩
  · exact fun c hc => ⟨c, hc, rfl⟩

/-- Claim C9: resolve(A,A) fails with InvalidArgument (self-chat is
forbidden) and leaves the store unchanged; and starting from a store whose
chats all satisfy the participants validator, no write operation produces
a chat whose two participants are equal (create-or-get only appends
validator-passing chats; the other writes never alter participants). -/
theorem resolve_self_rejected (db : DB) (A : String) (now : Nat)
    (hA : A ≠ "") (hdb : allChatsValid db = true) :
    (createOrGet db A A now).1 = Result.err Err.invalidArgument ∧
    (createOrGet db A A now).2 = db ∧
    (∀ X Y : String, ∀ n : Nat,
      allChatsValid (createOrGet db X Y n).2 = true) ∧
    (∀ cid : Nat, ∀ sid : String, ∀ t : Option String, ∀ im : Option Image,
      ∀ t2 : Nat,
      allChatsValid (sendMessage db cid sid t im t2).2 = true ∧
      allChatsValid (socketSendMessage db cid sid t im t2).2 = true ∧
      allChatsValid (editMessage db cid t sid t2).2 = true ∧
      allChatsValid (deleteMessage db cid sid t2).2 = true) := by
  refine ⟨?_, ?_, ?_, ?_⟩
  · simp [createOrGet, hA, sortPair_self]
  · simp [createOrGet, hA, sortPair_self]
  · intro X Y n
    rcases createOrGet_db_cases db X Y n with h | ⟨c, hv, h⟩
    · rw [h]; exact hdb
    · rw [h]
      rw [allChatsValid, List.all_eq_true] at hdb ⊢
      intro x hx
      rcases List.mem_append.mp hx with hx | hx
      · exact hdb x hx
      · simp only [List.mem_singleton] at hx
        subst hx
        simpa using hv
  · intro cid sid t im t2
    exact ⟨allChatsValid_of_stable db _
        (sendMessage_chats_stable db cid sid t im t2) hdb,
      allChatsValid_of_stable db _
        (socketSendMessage_chats_stable db cid sid t im t2) hdb,
      allChatsValid_of_stable db _
        (editMessage_chats_stable db cid t sid t2) hdb,
      allChatsValid_of_stable db _
        (deleteMessage_chats_stable db cid sid t2) hdb⟩

theorem reverse_take_reverse {α : Type} (l : List α) (k : Nat) :
    (l.reverse.take k).reverse = l.drop (l.length - k) :=
  (List.rtake_eq_reverse_take_reverse l k).symm

theorem min_beq_left (a b : Nat) : (min a b == a) = decide (a ≤ b) := by
  by_cases h : a ≤ b
  · simp [Nat.min_eq_left h, h]
  · have hb : b < a := not_le.mp h
    have hm : min a b = b := Nat.min_eq_right (le_of_lt hb)
    simp [hm, h, Nat.ne_of_lt hb]

/-- Claim C7: with no cursor the route serves page 1: the most recent
`limit` messages of the chat's timeline, in chronological order, and
`hasMore` is true exactly when the page holds exactly `limit` messages
(equivalently, when the timeline has at least `limit` messages). -/
theorem first_page_spec (db : DB) (chatId : Nat) (c : Chat) (limit : Nat)
    (hc : db.chats.find? (fun ch => ch.id == chatId) = some c)
    (hl : 1 ≤ limit) :
    getChat db chatId 1 limit =
      Result.ok (c,
        (chatTimeline db chatId).drop
          ((chatTimeline db chatId).length - limit),
        decide (limit ≤ (chatTimeline db chatId).length)) ∧
    (((chatTimeline db chatId).drop
        ((chatTimeline db chatId).length - limit)).length = limit ↔
      limit ≤ (chatTimeline db chatId).length) := by
  constructor
  · have h1 : (pageOf (messagesDesc db chatId) 1 limit).1 =
        (chatTimeline db chatId).drop
          ((chatTimeline db chatId).length - limit) := by
      simp only [pageOf, messagesDesc, Nat.sub_self, Nat.zero_mul,
        List.drop_zero]
      exact reverse_take_reverse _ _
    have h2 : (pageOf (messagesDesc db chatId) 1 limit).2 =
        decide (limit ≤ (chatTimeline db chatId).length) := by
      simp only [pageOf, messagesDesc, Nat.sub_self, Nat.zero_mul,
        List.drop_zero, List.length_take, List.length_reverse]
      exact min_beq_left _ _
    simp only [getChat, hc, h1, h2]
  · simp only [List.length_drop]
    omega

theorem collectPages_eq_pagesRest (l : List Message) (limit : Nat) :
    ∀ fuel page, 1 ≤ page →
      collectPages l limit page fuel =
        pagesRest limit (l.drop ((page - 1) * limit)) fuel := by
  intro fuel
  induction fuel with
  | zero => intro page hp; rfl
  | succ fuel ih =>
    intro page hp
    obtain ⟨q, rfl⟩ : ∃ q, page = q + 1 := ⟨page - 1, by omega⟩
    have hsel : (pageOf l (q + 1) limit).1 =
        ((l.drop (q * limit)).take limit).reverse := by
      simp [pageOf]
    have hmore : (pageOf l (q + 1) limit).2 =
        (((l.drop (q * limit)).take limit).length == limit) := by
      simp [pageOf]
    have hdd : (l.drop (q * limit)).drop limit = l.drop ((q + 1) * limit) := by
      rw [List.drop_drop]
      have hql : q * limit + limit = (q + 1) * limit := by ring
      rw [hql]
    have h21 : q + 2 - 1 = q + 1 := by omega
    simp only [collectPages, pagesRest, Nat.add_sub_cancel, hsel, hmore]
    rw [ih (q + 2) (by omega), h21, hdd]

theorem pagesRest_complete (limit : Nat) (hl : 1 ≤ limit) :
    ∀ fuel rest, rest.length < fuel →
      pagesRest limit rest fuel = rest.reverse := by
  intro fuel
  induction fuel with
  | zero => intro rest h; exact absurd h (Nat.not_lt_zero _)
  | succ fuel ih =>
    intro rest h
    by_cases hc : limit ≤ rest.length
    · have hcond : ((rest.take limit).length == limit) = true := by
        simp [List.length_take, Nat.min_eq_left hc]
      simp only [pagesRest, hcond, if_true]
      rw [ih (rest.drop limit) (by simp only [List.length_drop]; omega)]
      rw [← List.reverse_append, List.take_append_drop]
    · have ht : rest.take limit = rest :=
        List.take_of_length_le (by omega)
      have hcond : ((rest.take limit).length == limit) = false := by
        simp [ht]
        omega
      simp only [pagesRest, hcond, Bool.false_eq_true, if_false]
      rw [ht]

/-- Claim C2 (amended): with skip/limit paging over an unchanged message
list, requesting page 1, 2, ... with a fixed limit until hasMore is false
yields exactly the chat's timeline in original chronological order, with
no duplicates and no gaps. -/
theorem backward_paging_exact (db : DB) (chatId : Nat) (limit : Nat)
    (hl : 1 ≤ limit) :
    collectPages (messagesDesc db chatId) limit 1
      ((chatTimeline db chatId).length + 1) = chatTimeline db chatId := by
  rw [collectPages_eq_pagesRest _ _ _ 1 le_rfl]
  simp only [Nat.sub_self, Nat.zero_mul, List.drop_zero]
  rw [messagesDesc, pagesRest_complete limit hl _ _
    (by simp only [List.length_reverse]; omega)]
  exact List.reverse_reverse _

/-- Claim C2 counterexample: the route's pages are addressed by page
number with `skip = (page-1)*limit`, not by a cursor derived from the
oldest delivered message.  Concretely: page 1 (limit 2) over the
descending list [m3, m2, m1] delivers [m2, m3], so the oldest delivered
message is m2 (createdAt 2); after one newer message m4 arrives, the
code's page 2 delivers [m1, m2] — it re-delivers m2, which is not
strictly older than the cursor m2, so the "strictly older than the oldest
message already delivered" contract is violated (a duplicate). -/
theorem paging_not_cursor_based :
    (pageOf [cexMsg 3 3, cexMsg 2 2, cexMsg 1 1] 1 2).1 =
      [cexMsg 2 2, cexMsg 3 3] ∧
    (pageOf [cexMsg 3 3, cexMsg 2 2, cexMsg 1 1] 1 2).2 = true ∧
    (pageOf [cexMsg 3 3, cexMsg 2 2, cexMsg 1 1] 1 2).1.head? =
      some (cexMsg 2 2) ∧
    (pageOf [cexMsg 4 4, cexMsg 3 3, cexMsg 2 2, cexMsg 1 1] 2 2).1 =
      [cexMsg 1 1, cexMsg 2 2] ∧
    cexMsg 2 2 ∈ (pageOf [cexMsg 4 4, cexMsg 3 3, cexMsg 2 2, cexMsg 1 1] 2 2).1 ∧
    ¬ ((cexMsg 2 2).createdAt < (cexMsg 2 2).createdAt) := by
  refine ⟨rfl, rfl, rfl, rfl, ?_, by omega⟩
  decide

theorem editMessage_ok (db : DB) (mid : Nat) (s : String) (editor : String)
    (now : Nat) (m : Message)
    (hm : db.messages.find? (fun x => x.id == mid) = some m)
    (hs : strTrim s ≠ "")
    (he : m.sender = editor)
    (hage : ¬ (now - m.createdAt > 15 * 60 * 1000)) :
    editMessage db mid (some s) editor now =
      (Result.ok { id := m.id, sender := m.sender,
                   text := some (strTrim s), image := m.image,
                   createdAt := m.createdAt, edited := true },
       { db with messages := db.messages.map (fun x =>
           if x.id == mid then { m with text := some (strTrim s) }
           else x) }) := by
  simp [editMessage, hm, hs, he, hage]

/-- Claim C4 (code bug): at a concrete in-window edit by the sender, the
route responds with the hardcoded `edited: true` view (line 258), but the
persisted message is the original with only its text replaced:
MessageSchema has no `edited` path, so strict-mode `save()` drops
`message.edited = true` and no stored message ever carries an edited
flag — a later page load shows no trace of the edit marker the claim
requires.  The authorization parts of the claim do hold at the same
inputs: a non-sender editor is rejected Forbidden, and an edit more than
15 minutes after createdAt is rejected Forbidden. -/
theorem edit_does_not_persist_edited_flag :
    (editMessage dbW 2 (some " fixed ") "bob" 100).1 =
      Result.ok { id := 2, sender := "bob", text := some "fixed",
                  image := none, createdAt := 20, edited := true } ∧
    ((editMessage dbW 2 (some " fixed ") "bob" 100).2.messages.find?
        (fun x => x.id == 2)) = some { msgW2 with text := some "fixed" } ∧
    (editMessage dbW 2 (some " fixed ") "bob" 100).2.messages =
      [msgW1, { msgW2 with text := some "fixed" }, msgW3] ∧
    (editMessage dbW 2 (some " fixed ") "alice" 100).1 =
      Result.err Err.forbidden ∧
    (editMessage dbW 2 (some " fixed ") "bob"
        (20 + 15 * 60 * 1000 + 1)).1 = Result.err Err.forbidden := by
  exact ⟨rfl, rfl, rfl, rfl, rfl⟩

/-- Claim C10 (amended): a successful edit changes only the message's
text: the stored record keeps its id, chat, sender, createdAt and image
(there is no stored edited flag to change), every other message is
untouched (the store maps only the edited id), and the chat collection is
not modified at all. -/
theorem edit_frame (db : DB) (mid : Nat) (s : String) (editor : String)
    (now : Nat) (m : Message)
    (hm : db.messages.find? (fun x => x.id == mid) = some m)
    (hok : (editMessage db mid (some s) editor now).1.isOk = true) :
    (editMessage db mid (some s) editor now).2.chats = db.chats ∧
    (editMessage db mid (some s) editor now).2.messages =
      db.messages.map (fun x =>
        if x.id == mid then { m with text := some (strTrim s) } else x) ∧
    ∀ m', ((editMessage db mid (some s) editor now).2.messages.find?
        (fun x => x.id == mid)) = some m' →
      m' = { m with text := some (strTrim s) } ∧
      m'.id = m.id ∧ m'.chat = m.chat ∧ m'.sender = m.sender ∧
      m'.createdAt = m.createdAt ∧ m'.image = m.image := by
  by_cases hs : strTrim s = ""
  · simp [editMessage, hs, Result.isOk] at hok
  · by_cases he : m.sender = editor
    · by_cases hage : now - m.createdAt > 15 * 60 * 1000
      · simp [editMessage, hm, hs, he, hage, Result.isOk] at hok
      · have heq := editMessage_ok db mid s editor now m hm hs he hage
        have hpm : (m.id == mid) = true := by
          have hp := @List.find?_some Message (fun x => x.id == mid) m
            db.messages hm
          simpa using hp
        have hfind := find?_map_if db.messages (fun x => x.id == mid)
          { m with text := some (strTrim s) }
          (by rw [hm]; rfl) (by simpa using hpm)
        refine ⟨by rw [heq], by rw [heq], ?_⟩
        intro m' hm'
        rw [heq] at hm'
        have hmm : some ({ m with text := some (strTrim s)} : Message)
            = some m' := hfind.symm.trans hm'
        obtain rfl : ({ m with text := some (strTrim s)} : Message) = m' :=
          by injection hmm
        exact ⟨rfl, rfl, rfl, rfl, rfl, rfl⟩
    · simp [editMessage, hm, hs, he, Result.isOk] at hok

/-- Claim C10 counterexample: the claim's "(and its edited flag)" part
fails: after a successful edit the persisted record is exactly the
original message with only the text replaced — MessageSchema stores
chat, sender, text, image and createdAt and nothing else — while the
transient response view hardcodes `edited: true`. -/
theorem edit_changes_text_only_cex :
    ((editMessage dbW 3 (some "bye") "alice" 31).2.messages.find?
        (fun x => x.id == 3)) = some { msgW3 with text := some "bye" } ∧
    (editMessage dbW 3 (some "bye") "alice" 31).2.messages =
      [msgW1, msgW2, { msgW3 with text := some "bye" }] ∧
    (editMessage dbW 3 (some "bye") "alice" 31).1 =
      Result.ok { id := 3, sender := "alice", text := some "bye",
                  image := none, createdAt := 30, edited := true } := by
  exact ⟨rfl, rfl, rfl⟩

theorem find?_map_pres {α : Type} (l : List α) (p : α → Bool) (f : α → α)
    (hp : ∀ x, p (f x) = p x) (a : α)
    (ha : l.find? p = some a) :
    (l.map f).find? p = some (f a) := by
  induction l with
  | nil => simp [List.find?] at ha
  | cons x l ih =>
    cases hx : p x with
    | true =>
      have hax : x = a := by
        rw [List.find?_cons, hx] at ha
        injection ha
      rw [List.map_cons, List.find?_cons, hp x, hx, hax]
    | false =>
      have ha' : l.find? p = some a := by
        rw [List.find?_cons, hx] at ha
        exact ha
      rw [List.map_cons, List.find?_cons, hp x, hx]
      exact ih ha'

theorem pairwise_max_getLast {l : List Message}
    (hpw : l.Pairwise (fun a b => a.createdAt ≤ b.createdAt))
    {y : Message} (hy : l.reverse.head? = some y) :
    ∀ x ∈ l, x.createdAt ≤ y.createdAt := by
  intro x hx
  cases hrev : l.reverse with
  | nil => rw [hrev] at hy; simp at hy
  | cons z zs =>
    rw [hrev] at hy
    simp only [List.head?_cons, Option.some.injEq] at hy
    subst hy
    have hpwr : (z :: zs).Pairwise
        (fun a b => b.createdAt ≤ a.createdAt) := by
      rw [← hrev]
      exact List.pairwise_reverse.mpr hpw
    have hxr : x ∈ z :: zs := by
      rw [← hrev]
      exact List.mem_reverse.mpr hx
    rcases List.mem_cons.mp hxr with rfl | hxz
    · exact le_refl _
    · exact (List.pairwise_cons.mp hpwr).1 x hxz

theorem deleteMessage_ok_last (db : DB) (mid : Nat) (requester : String)
    (now : Nat) (m : Message) (c : Chat)
    (hm : db.messages.find? (fun x => x.id == mid) = some m)
    (hreq : m.sender = requester)
    (hc : db.chats.find? (fun ch => ch.id == m.chat) = some c)
    (hlast : c.lastMessage = some mid) :
    deleteMessage db mid requester now =
      (Result.ok mid,
       { db with
         messages := db.messages.filter (fun x => !(x.id == mid)),
         chats := db.chats.map (fun ch =>
           if ch.id == m.chat then
             { ch with
               lastMessage :=
                 (newestInChat
                   (db.messages.filter (fun x => !(x.id == mid)))
                   m.chat).map (fun x => x.id),
               updatedAt := now }
           else ch) }) := by
  simp [deleteMessage, hm, hreq, hc, hlast]

/-- Claim C5: only the original sender may delete, with no time window: a
non-sender request is rejected Forbidden with the store unchanged, while a
sender delete succeeds at any time and removes exactly that message; when
the deleted message was the owning chat's lastMessage, the stored chat
record is updated so that lastMessage is recomputed as the newest
remaining message of that chat (or none) and updatedAt is set to the
current time; when it was not the lastMessage, the chat collection is
untouched.  Under a chronological store the recomputed pointer has the
maximal createdAt among the remaining messages of the chat. -/
theorem delete_rules (db : DB) (mid : Nat) (requester : String) (now : Nat)
    (m : Message) (c : Chat)
    (hm : db.messages.find? (fun x => x.id == mid) = some m)
    (hc : db.chats.find? (fun ch => ch.id == m.chat) = some c) :
    (requester ≠ m.sender →
      deleteMessage db mid requester now = (Result.err Err.forbidden, db)) ∧
    (requester = m.sender →
      (deleteMessage db mid requester now).1 = Result.ok mid ∧
      (deleteMessage db mid requester now).2.messages =
        db.messages.filter (fun x => !(x.id == mid)) ∧
      (c.lastMessage = some mid →
        ((deleteMessage db mid requester now).2.chats.find?
            (fun ch => ch.id == m.chat)) =
          some { c with
            lastMessage :=
              (newestInChat (db.messages.filter (fun x => !(x.id == mid)))
                m.chat).map (fun x => x.id),
            updatedAt := now }) ∧
      (c.lastMessage ≠ some mid →
        (deleteMessage db mid requester now).2.chats = db.chats)) ∧
    (chronological db.messages →
      ∀ y ∈ newestInChat (db.messages.filter (fun x => !(x.id == mid)))
          m.chat,
        ∀ x ∈ db.messages.filter (fun x => !(x.id == mid)),
          x.chat = m.chat → x.createdAt ≤ y.createdAt) := by
  have hcid : (c.id == m.chat) = true := by
    have hp := @List.find?_some Chat (fun ch => ch.id == m.chat) c
      db.chats hc
    simpa using hp
  refine ⟨?_, ?_, ?_⟩
  · intro hne
    have hne' : m.sender ≠ requester := Ne.symm hne
    simp [deleteMessage, hm, hne']
  · intro hreq
    have hreq' : m.sender = requester := hreq.symm
    by_cases hlast : c.lastMessage = some mid
    · have heq := deleteMessage_ok_last db mid requester now m c hm hreq'
        hc hlast
      refine ⟨by rw [heq], by rw [heq], ?_, ?_⟩
      · intro _
        rw [heq]
        have hfind := find?_map_pres db.chats
          (fun ch => ch.id == m.chat)
          (fun ch =>
            if ch.id == m.chat then
              { ch with
                lastMessage :=
                  (newestInChat
                    (db.messages.filter (fun x => !(x.id == mid)))
                    m.chat).map (fun x => x.id),
                updatedAt := now }
            else ch)
          (fun x => by by_cases hx : (x.id == m.chat) = true <;> simp [hx])
          c hc
        rw [hfind]
        simp [hcid]
      · intro hne
        exact absurd hlast hne
    · simp [deleteMessage, hm, hreq', hc, hlast]
  · intro hch y hy x hx hxc
    have hy' : ((db.messages.filter (fun x => !(x.id == mid))).filter
        (fun mm => mm.chat == m.chat)).reverse.head? = some y := by
      rw [← Option.mem_def]
      exact hy
    have hpw : ((db.messages.filter (fun x => !(x.id == mid))).filter
        (fun mm => mm.chat == m.chat)).Pairwise
        (fun a b => a.createdAt ≤ b.createdAt) :=
      List.Pairwise.filter _ (List.Pairwise.filter _ hch)
    have hxfl : x ∈ (db.messages.filter (fun x => !(x.id == mid))).filter
        (fun mm => mm.chat == m.chat) :=
      List.mem_filter.mpr ⟨hx, by simp [hxc]⟩
    exact pairwise_max_getLast hpw hy' x hxfl

/-- Claim C6 (amended): the send-message route fails NotFound when the
chat is absent and Forbidden when the sender is not a participant; when
only an image is supplied (text absent or blank) the created message's
text defaults to the placeholder "Photo".  (There is no InvalidArgument
check for "neither text nor image": such a request is accepted.) -/
theorem append_checks (db : DB) (chatId : Nat) (senderId : String)
    (text : Option String) (file : Option Image) (now : Nat)
    (hs : senderId ≠ "") :
    (db.chats.find? (fun c => c.id == chatId) = none →
      (sendMessage db chatId senderId text file now).1 =
        Result.err Err.notFound) ∧
    (∀ c, db.chats.find? (fun c => c.id == chatId) = some c →
      c.participants.contains senderId = false →
      (sendMessage db chatId senderId text file now).1 =
        Result.err Err.forbidden) ∧
    (∀ c img, db.chats.find? (fun c => c.id == chatId) = some c →
      c.participants.contains senderId = true →
      file = some img →
      (text.map strTrim = none ∨ text.map strTrim = some "") →
      (sendMessage db chatId senderId text file now).1 =
        Result.ok { id := db.nextMsgId, chat := chatId, sender := senderId,
                    text := some "Photo", image := some img,
                    createdAt := now }) := by
  refine ⟨?_, ?_, ?_⟩
  · intro h
    simp [sendMessage, hs, h]
  · intro c hfo hnp
    have hnp' : ¬ senderId ∈ c.participants := by simpa using hnp
    simp [sendMessage, hs, hfo, hnp']
  · intro c img hfo hp hfile ht
    subst hfile
    have hp' : senderId ∈ c.participants := by simpa using hp
    rcases ht with ht | ht <;> simp [sendMessage, hs, hfo, hp', ht]

/-- Claim C6 counterexample: with an existing chat and a participant
sender but neither text nor image supplied, the send-message route does
not fail InvalidArgument: it accepts the request and stores a message
with no text and no image. -/
theorem append_no_content_check :
    (sendMessage dbW 1 "alice" none none 99).1 =
      Result.ok { id := 4, chat := 1, sender := "alice", text := none,
                  image := none, createdAt := 99 } ∧
    (sendMessage dbW 1 "alice" none none 99).1 ≠
      Result.err Err.invalidArgument := by
  exact ⟨rfl, by decide⟩

/-- Claim C1 (code bug): the HTTP send-message route rejects a
non-participant sender with Forbidden, but the Socket.IO send-message
handler persists the same write with no chat-existence or participant
check: on a store whose only chat is chat 1 between alice and bob, the
socket path accepts sender "mallory" and stores a message whose senderId
is not a participant of the referenced chat — the two transports are not
one authoritative write pipeline enforcing the participant invariant. -/
theorem socket_write_bypasses_participant_check :
    (sendMessage dbW 1 "mallory" (some "hi") none 50).1 =
      Result.err Err.forbidden ∧
    (socketSendMessage dbW 1 "mallory" (some "hi") none 50).1 =
      Result.ok { id := 4, chat := 1, sender := "mallory",
                  text := some "hi", image := none, createdAt := 50 } ∧
    ((socketSendMessage dbW 1 "mallory" (some "hi") none 50).2.messages.filter
        (fun m => m.chat == 1 && m.sender == "mallory")).length = 1 ∧
    (dbW.chats.filter
        (fun c => c.id == 1 && c.participants.contains "mallory")).length
      = 0 := by
  exact ⟨rfl, rfl, rfl, rfl⟩

/-- Claim C8 counterexample: the effective limit is not the supplied
limit clamped to [1,100]: a parsed limit of -5 passes through unchanged
(no lower clamp would allow a value below 1), and a parsed limit of 0
becomes the default 30 rather than the clamp bound 1. -/
theorem limit_not_clamped :
    effLimit (some (-5)) = -5 ∧
    ¬ (1 ≤ effLimit (some (-5))) ∧
    effLimit (some 0) = 30 := by
  exact ⟨rfl, by decide, rfl⟩

/-- Claim C8 (amended): the effective limit defaults to 30 when the limit
is absent, unparsable, or parses to 0, and otherwise is min(supplied,100):
it is clamped from above at 100 and passed through for any other value,
including values below 1. -/
theorem effLimit_spec (v : Int) (hv : v ≠ 0) :
    effLimit none = 30 ∧ effLimit (some 0) = 30 ∧
    effLimit (some v) = min v 100 ∧
    (1 ≤ v → v ≤ 100 → effLimit (some v) = v) ∧
    (100 < v → effLimit (some v) = 100) ∧
    (v < 0 → effLimit (some v) = v) := by
  have hbase : effLimit (some v) = min v 100 := by
    simp [effLimit, parseIntOr, hv]
  refine ⟨rfl, rfl, hbase, ?_, ?_, ?_⟩
  · intro h1 h2
    rw [hbase]
    omega
  · intro h
    rw [hbase]
    omega
  · intro h
    rw [hbase]
    omega

/-- Witness for resolve_comm_idem: the pair (alice, carol) on the concrete
store dbW. -/
theorem resolve_comm_idem_witness :
    (("alice" : String) ≠ "" ∧ ("carol" : String) ≠ "" ∧
      ("alice" : String) ≠ "carol") ∧
    (createOrGet dbW "alice" "carol" 5 = createOrGet dbW "carol" "alice" 5 ∧
      (createOrGet dbW "alice" "carol" 5).1.isOk = true ∧
      createOrGet (createOrGet dbW "alice" "carol" 5).2 "alice" "carol" 6 =
        createOrGet dbW "alice" "carol" 5 ∧
      createOrGet (createOrGet dbW "alice" "carol" 5).2 "carol" "alice" 6 =
        createOrGet dbW "alice" "carol" 5) :=
  ⟨⟨by decide, by decide, by decide⟩,
    resolve_comm_idem dbW "alice" "carol" 5 6 (by decide) (by decide)
      (by decide)⟩

/-- Witness for resolve_self_rejected: the self pair (alice, alice) on the
concrete store dbW. -/
theorem resolve_self_rejected_witness :
    (("alice" : String) ≠ "" ∧ allChatsValid dbW = true) ∧
    ((createOrGet dbW "alice" "alice" 7).1 =
        Result.err Err.invalidArgument ∧
      (createOrGet dbW "alice" "alice" 7).2 = dbW ∧
      (∀ X Y : String, ∀ n : Nat,
        allChatsValid (createOrGet dbW X Y n).2 = true) ∧
      (∀ cid : Nat, ∀ sid : String, ∀ t : Option String,
        ∀ im : Option Image, ∀ t2 : Nat,
        allChatsValid (sendMessage dbW cid sid t im t2).2 = true ∧
        allChatsValid (socketSendMessage dbW cid sid t im t2).2 = true ∧
        allChatsValid (editMessage dbW cid t sid t2).2 = true ∧
        allChatsValid (deleteMessage dbW cid sid t2).2 = true)) :=
  ⟨⟨by decide, by decide⟩,
    resolve_self_rejected dbW "alice" 7 (by decide) (by decide)⟩

/-- Witness for backward_paging_exact: chat 1 of dbW with limit 2. -/
theorem backward_paging_exact_witness :
    1 ≤ 2 ∧
    collectPages (messagesDesc dbW 1) 2 1
      ((chatTimeline dbW 1).length + 1) = chatTimeline dbW 1 :=
  ⟨by decide, backward_paging_exact dbW 1 2 (by decide)⟩

/-- Witness for first_page_spec: page 1 with limit 2 on chat 1 of dbW. -/
theorem first_page_spec_witness :
    (dbW.chats.find? (fun ch => ch.id == 1) = some chatW ∧ 1 ≤ 2) ∧
    (getChat dbW 1 1 2 =
        Result.ok (chatW,
          (chatTimeline dbW 1).drop ((chatTimeline dbW 1).length - 2),
          decide (2 ≤ (chatTimeline dbW 1).length)) ∧
      (((chatTimeline dbW 1).drop
          ((chatTimeline dbW 1).length - 2)).length = 2 ↔
        2 ≤ (chatTimeline dbW 1).length)) :=
  ⟨⟨by decide, by decide⟩,
    first_page_spec dbW 1 chatW 2 (by decide) (by decide)⟩

/-- Witness for edit_frame: the successful edit of message 2 of dbW. -/
theorem edit_frame_witness :
    (dbW.messages.find? (fun x => x.id == 2) = some msgW2 ∧
      (editMessage dbW 2 (some "yo2") "bob" 100).1.isOk = true) ∧
    ((editMessage dbW 2 (some "yo2") "bob" 100).2.chats = dbW.chats ∧
      (editMessage dbW 2 (some "yo2") "bob" 100).2.messages =
        dbW.messages.map (fun x =>
          if x.id == 2 then { msgW2 with text := some (strTrim "yo2") }
          else x) ∧
      ∀ m', ((editMessage dbW 2 (some "yo2") "bob" 100).2.messages.find?
          (fun x => x.id == 2)) = some m' →
        m' = { msgW2 with text := some (strTrim "yo2") } ∧
        m'.id = msgW2.id ∧ m'.chat = msgW2.chat ∧
        m'.sender = msgW2.sender ∧ m'.createdAt = msgW2.createdAt ∧
        m'.image = msgW2.image) :=
  ⟨⟨by decide, by decide⟩,
    edit_frame dbW 2 "yo2" "bob" 100 msgW2 (by decide) (by decide)⟩

/-- Witness for delete_rules: alice deletes message 3 of dbW (the chat's
lastMessage) at time 500. -/
theorem delete_rules_witness :
    (dbW.messages.find? (fun x => x.id == 3) = some msgW3 ∧
      dbW.chats.find? (fun ch => ch.id == msgW3.chat) = some chatW) ∧
    ((("alice" : String) ≠ msgW3.sender →
        deleteMessage dbW 3 "alice" 500 = (Result.err Err.forbidden, dbW)) ∧
      (("alice" : String) = msgW3.sender →
        (deleteMessage dbW 3 "alice" 500).1 = Result.ok 3 ∧
        (deleteMessage dbW 3 "alice" 500).2.messages =
          dbW.messages.filter (fun x => !(x.id == 3)) ∧
        (chatW.lastMessage = some 3 →
          ((deleteMessage dbW 3 "alice" 500).2.chats.find?
              (fun ch => ch.id == msgW3.chat)) =
            some { chatW with
              lastMessage :=
                (newestInChat
                  (dbW.messages.filter (fun x => !(x.id == 3)))
                  msgW3.chat).map (fun x => x.id),
              updatedAt := 500 }) ∧
        (chatW.lastMessage ≠ some 3 →
          (deleteMessage dbW 3 "alice" 500).2.chats = dbW.chats)) ∧
      (chronological dbW.messages →
        ∀ y ∈ newestInChat (dbW.messages.filter (fun x => !(x.id == 3)))
            msgW3.chat,
          ∀ x ∈ dbW.messages.filter (fun x => !(x.id == 3)),
            x.chat = msgW3.chat → x.createdAt ≤ y.createdAt)) :=
  ⟨⟨by decide, by decide⟩,
    delete_rules dbW 3 "alice" 500 msgW3 chatW (by decide) (by decide)⟩

/-- Witness for append_checks: sending to chat 1 of dbW as alice with an
image and no text. -/
theorem append_checks_witness :
    ("alice" : String) ≠ "" ∧
    ((dbW.chats.find? (fun c => c.id == 1) = none →
        (sendMessage dbW 1 "alice" none (some imgW) 77).1 =
          Result.err Err.notFound) ∧
      (∀ c, dbW.chats.find? (fun c => c.id == 1) = some c →
        c.participants.contains "alice" = false →
        (sendMessage dbW 1 "alice" none (some imgW) 77).1 =
          Result.err Err.forbidden) ∧
      (∀ c img, dbW.chats.find? (fun c => c.id == 1) = some c →
        c.participants.contains "alice" = true →
        (some imgW : Option Image) = some img →
        ((none : Option String).map strTrim = none ∨
          (none : Option String).map strTrim = some "") →
        (sendMessage dbW 1 "alice" none (some imgW) 77).1 =
          Result.ok { id := dbW.nextMsgId, chat := 1, sender := "alice",
                      text := some "Photo", image := some img,
                      createdAt := 77 })) :=
  ⟨by decide, append_checks dbW 1 "alice" none (some imgW) 77 (by decide)⟩

/-- Witness for effLimit_spec at the parsed limit -5. -/
theorem effLimit_spec_witness :
    ((-5 : Int) ≠ 0) ∧
    (effLimit none = 30 ∧ effLimit (some 0) = 30 ∧
      effLimit (some (-5)) = min (-5) 100 ∧
      (1 ≤ (-5 : Int) → (-5 : Int) ≤ 100 → effLimit (some (-5)) = -5) ∧
      (100 < (-5 : Int) → effLimit (some (-5)) = 100) ∧
      ((-5 : Int) < 0 → effLimit (some (-5)) = -5)) :=
  ⟨by decide, effLimit_spec (-5) (by decide)⟩
